import Mathlib

set_option maxHeartbeats 1000000

namespace Odo

/-- Width bound of the hardware registers and of `unsigned long` on the
target SoC (i.MX27, 32-bit ARM): all register and driver-state values live
below `2 ^ 32`. -/
def wordSize : Nat := 2 ^ 32

/-- The five memory-mapped GPT registers the driver touches
(`TCTL_REG`, `TPRER_REG`, `TCMP_REG`, `TCN_REG`, `TSTAT_REG`). -/
inductive Reg where
  | tctl
  | tprer
  | tcmp
  | tcn
  | tstat
deriving DecidableEq, Repr

/-- The register file of the mapped GPT memory region. -/
structure Regs where
  tctl : Nat
  tprer : Nat
  tcmp : Nat
  tcn : Nat
  tstat : Nat
deriving DecidableEq, Repr

/-- Model of `ioread32` on the mapped region: read one register. -/
def ioread32 (r : Regs) : Reg → Nat
  | .tctl => r.tctl
  | .tprer => r.tprer
  | .tcmp => r.tcmp
  | .tcn => r.tcn
  | .tstat => r.tstat

/-- Model of `iowrite32` on the mapped region: store a value into one
register, truncated to the 32 bits the hardware register holds. -/
def iowrite32 (r : Regs) (reg : Reg) (v : Nat) : Regs :=
  match reg with
  | .tctl => { r with tctl := v % wordSize }
  | .tprer => { r with tprer := v % wordSize }
  | .tcmp => { r with tcmp := v % wordSize }
  | .tcn => { r with tcn := v % wordSize }
  | .tstat => { r with tstat := v % wordSize }

/-- Well-formedness of a register file: every register holds a 32-bit value. -/
def Regs.WF (r : Regs) : Prop :=
  r.tctl < wordSize ∧ r.tprer < wordSize ∧ r.tcmp < wordSize ∧
    r.tcn < wordSize ∧ r.tstat < wordSize

instance (r : Regs) : Decidable r.WF := by
  unfold Regs.WF
  infer_instance

/-- The field-clearing loop of `odo_set_gpt_field` (src/odo.c lines 81-82):
for `bit` from `pos` to `pos + sz - 1`, do `v &= ~(1 << bit)`; on the
target, `~` complements within the 32-bit word. -/
def clearBits : Nat → Nat → Nat → Nat
  | v, _, 0 => v
  | v, pos, sz + 1 => clearBits (v &&& ((wordSize - 1) ^^^ (1 <<< pos))) (pos + 1) sz

/-- Model of `odo_set_gpt_field` (src/odo.c lines 75-88): read the register,
clear the `sz` bits starting at `pos` with the loop, merge in
`val <<< pos` (32-bit arithmetic), and write the result back. -/
def odo_set_gpt_field (r : Regs) (reg : Reg) (pos sz val : Nat) : Regs :=
  let v := ioread32 r reg
  let v := clearBits v pos sz
  let mask := (val <<< pos) % wordSize
  let v := v ||| mask
  iowrite32 r reg v

/-- Value of the `sz`-bit field at offset `pos` of a register value
(a specification helper used to state what a configuration holds; the
driver itself has no field-read accessor). -/
def extractField (v pos sz : Nat) : Nat :=
  (v >>> pos) &&& (2 ^ sz - 1)

/-- One `odo_set_gpt_field` call: target register, field offset, field
width, value. -/
structure FieldWrite where
  reg : Reg
  pos : Nat
  sz : Nat
  val : Nat
deriving DecidableEq, Repr

/-- The eight `odo_set_gpt_field` calls of `odo_timer_setup`
(src/odo.c lines 90-110), in program order: disable counter (TCTL_TEN),
reset-on-disable (TCTL_CC), TIN clock source (TCTL_CLKSOURCE), prescaler
divide-by-1 (TPRER_PRESCALER), compare enable (TCTL_COMP_EN), restart after
compare (TCTL_FRR), compare value (TCMP_CMP), start counting (TCTL_TEN). -/
def odo_timer_setup_calls : List FieldWrite :=
  [ ⟨.tctl, 0, 1, 0⟩,
    ⟨.tctl, 10, 1, 1⟩,
    ⟨.tctl, 1, 3, 3⟩,
    ⟨.tprer, 0, 10, 0⟩,
    ⟨.tctl, 4, 1, 1⟩,
    ⟨.tctl, 8, 1, 0⟩,
    ⟨.tcmp, 0, 32, 0xFFFFFFFF⟩,
    ⟨.tctl, 0, 1, 1⟩ ]

/-- Apply one `odo_set_gpt_field` call to the register file. -/
def applyFieldWrite (r : Regs) (c : FieldWrite) : Regs :=
  odo_set_gpt_field r c.reg c.pos c.sz c.val

/-- Model of `odo_timer_setup` (src/odo.c lines 90-110): run the eight
field writes in program order. -/
def odo_timer_setup (r : Regs) : Regs :=
  odo_timer_setup_calls.foldl applyFieldWrite r

/-- Software state of the driver: the counter and telemetry fields of
`struct _odo` (src/odo.c lines 57-66). All fields are `unsigned long`,
32 bits wide on the target. -/
structure OdoState where
  counter_ms : Nat
  counter_ls : Nat
  nb_access : Nat
  first_access : Nat
  last_access : Nat
deriving DecidableEq, Repr

/-- TSTAT_COMP, the compare-match status bit (src/odo.c line 55). -/
def TSTAT_COMP : Nat := 1

/-- Inputs one `counter_show` call receives from its environment: the value
the `ioread32` of `TSTAT_REG` returns, the value `odo_read_count` returns
(the `ioread32` of `TCN_REG`), and the current `jiffies`. -/
structure QIn where
  status : Nat
  count : Nat
  now : Nat
deriving DecidableEq, Repr

/-- Model of one `counter_show` call (src/odo.c lines 147-165): returns the
64-bit value printed, the list of values written to `TSTAT_REG`
(write-1-to-clear in hardware), and the updated software state. The status
test mirrors `if (status & TSTAT_COMP)`; the increment of `counter_ms` and
`nb_access` wraps at 32 bits as `unsigned long` does on the target; the
printed value is computed in `unsigned long long`, hence the `2 ^ 64`. -/
def counter_show (s : OdoState) (i : QIn) : Nat × List Nat × OdoState :=
  let msAndWrites :=
    if i.status &&& TSTAT_COMP ≠ 0 then
      ((s.counter_ms + 1) % wordSize, [TSTAT_COMP])
    else
      (s.counter_ms, ([] : List Nat))
  let ms := msAndWrites.1
  let ls := i.count
  let counter_64 := ((ms <<< 32) + ls) % 2 ^ 64
  let nb := (s.nb_access + 1) % wordSize
  let last := i.now
  let first := if s.first_access = 0 then last else s.first_access
  (counter_64, msAndWrites.2,
   { counter_ms := ms, counter_ls := ls, nb_access := nb,
     first_access := first, last_access := last })

/-- Values returned by a sequence of `counter_show` calls, threading the
software state; models repeated reads of the counter attribute with no
intervening reset. -/
def queryValues (s : OdoState) : List QIn → List Nat
  | [] => []
  | i :: rest => (counter_show s i).1 :: queryValues (counter_show s i).2.2 rest

/-- Software state after a sequence of `counter_show` calls. -/
def run_queries (s : OdoState) : List QIn → OdoState
  | [] => s
  | i :: rest => run_queries (counter_show s i).2.2 rest

/-- Model of `odo_reset_count` (src/odo.c lines 121-135): zero the software
counter words, disable the timer (TCTL_TEN := 0, which hardware-resets the
count because TCTL_CC is set), settle for 10 ms, re-enable the timer. -/
def odo_reset_count (s : OdoState) (r : Regs) : OdoState × Regs :=
  let s := { s with counter_ms := 0, counter_ls := 0 }
  let r := odo_set_gpt_field r .tctl 0 1 0
  let r := odo_set_gpt_field r .tctl 0 1 1
  (s, r)

/-- The complete reset path of `reset_store` (src/odo.c lines 199-204):
`odo_reset_count` followed by zeroing the three telemetry fields. -/
def odo_full_reset (s : OdoState) (r : Regs) : OdoState × Regs :=
  let sr := odo_reset_count s r
  ({ sr.1 with nb_access := 0, first_access := 0, last_access := 0 }, sr.2)

/-- Model of `reset_store` (src/odo.c lines 188-207). `parse` is the outcome
of the external kernel primitive `kstrtoint(buf, 10, &reset)`: `.error e`
models a negative return code, `.ok n` a successfully parsed integer. The
character literal `'1'` in the source compares `reset` with 49. On success
the function returns `count` (the length of the written buffer). -/
def reset_store (parse : Except Int Int) (s : OdoState) (r : Regs) (count : Nat) :
    Except Int (OdoState × Regs × Nat) :=
  match parse with
  | .error e => .error e
  | .ok reset =>
    if reset = 1 ∨ reset = 49 then
      let sr := odo_full_reset s r
      .ok (sr.1, sr.2, count)
    else
      .ok (s, r, count)

/-- Model of `mean_period_show` (src/odo.c lines 174-186). `hz` is the
kernel `HZ` constant. All arithmetic is `unsigned long`, 32 bits on the
target: the subtraction wraps modulo `2 ^ 32` and so does the product
`diff * 1000`; the divisions only shrink their operand. The guard
`nb_access <= 0` on an unsigned value is an equality test with zero. -/
def mean_period_show (s : OdoState) (hz : Nat) : Nat :=
  let diff := (s.last_access + wordSize - s.first_access) % wordSize
  if s.nb_access = 0 then 0 else diff * 1000 % wordSize / hz / s.nb_access

/-- Thread identities for the interleaving analysis of `counter_show`. -/
inductive Tid where
  | A
  | B
deriving DecidableEq, Repr

/-- The two atomic phases of the carry-update sequence of `counter_show`
(src/odo.c lines 152-156): the `ioread32` of `TSTAT_REG` (line 152), and
the conditional increment-and-clear block (lines 153-156). -/
inductive MicroOp where
  | readStatus
  | carryUpdate
deriving DecidableEq, Repr

/-- Shared state for the interleaving analysis: the hardware compare-match
flag, `counter_ms`, and each thread's privately observed `status` value
(the local variable of its own `counter_show` activation). -/
structure RaceState where
  comp_flag : Bool
  counter_ms : Nat
  obsA : Bool
  obsB : Bool
deriving DecidableEq, Repr

/-- One atomic step of a thread running the carry-update sequence of
`counter_show`: reading the status latches the current flag into the
thread's local variable; the update block increments `counter_ms` and
clears the flag iff the latched status had the compare bit set. -/
def race_step (st : RaceState) (t : Tid) : MicroOp → RaceState
  | .readStatus =>
    match t with
    | .A => { st with obsA := st.comp_flag }
    | .B => { st with obsB := st.comp_flag }
  | .carryUpdate =>
    let obs := match t with | .A => st.obsA | .B => st.obsB
    if obs then { st with counter_ms := st.counter_ms + 1, comp_flag := false }
    else st

/-- Run a schedule: an interleaving of the two threads' atomic steps. -/
def race_run (st : RaceState) : List (Tid × MicroOp) → RaceState
  | [] => st
  | top :: rest => race_run (race_step st top.1 top.2) rest

/-- MEM_GPT_OFFSET, the six per-timer register-block offsets
(src/odo.c line 37). -/
def MEM_GPT_OFFSET : List Nat := [0x3000, 0x4000, 0x5000, 0x19000, 0x1A000, 0x1F000]

/-- GPT_TIN, the six per-timer input GPIO numbers (src/odo.c line 38). -/
def GPT_TIN : List Nat := [79, 79, 79, 91, 89, 78]

/-- Fallback validation of `odo_init` when no device-tree node exists
(src/odo.c line 240): `gpt_id` is accepted iff not (id < 2 or id > 6). -/
def fallback_accepts (id : Int) : Bool :=
  !(id < 2 || id > 6)

/-- Index into MEM_GPT_OFFSET used by `odo_init` (src/odo.c line 250). -/
def offset_index (id : Int) : Int := id - 1

/-- Index into GPT_TIN used by `odo_init` (src/odo.c lines 239, 271). -/
def gpio_index (id : Int) : Int := id

end Odo

namespace Odo

theorem ioread32_iowrite32_self (r : Regs) (reg : Reg) (v : Nat) :
    ioread32 (iowrite32 r reg v) reg = v % wordSize := by
  cases reg <;> rfl

theorem ioread32_iowrite32_other (r : Regs) (reg reg2 : Reg) (v : Nat)
    (h : reg2 ≠ reg) : ioread32 (iowrite32 r reg v) reg2 = ioread32 r reg2 := by
  cases reg <;> cases reg2 <;> first | rfl | exact absurd rfl h

theorem clearBits_le (v pos sz : Nat) : clearBits v pos sz ≤ v := by
  induction sz generalizing v pos with
  | zero => exact Nat.le_refl v
  | succ n ih =>
    exact Nat.le_trans (ih _ _) Nat.and_le_left

theorem clearBits_testBit (sz pos v i : Nat) (hv : v < wordSize) :
    (clearBits v pos sz).testBit i =
      (v.testBit i && !(decide (pos ≤ i) && decide (i < pos + sz))) := by
  induction sz generalizing pos v with
  | zero =>
    show v.testBit i = _
    have h : (decide (pos ≤ i) && decide (i < pos + 0)) = false := by
      rcases Nat.lt_or_ge i pos with h1 | h1
      · simp [show ¬ pos ≤ i by omega]
      · simp [show ¬ i < pos + 0 by omega]
    rw [h]
    simp
  | succ n ih =>
    show (clearBits (v &&& ((wordSize - 1) ^^^ (1 <<< pos))) (pos + 1) n).testBit i = _
    rw [ih (pos + 1) _ (Nat.lt_of_le_of_lt Nat.and_le_left hv)]
    by_cases hb : v.testBit i
    · have hi : i < 32 := by
        by_contra hge
        have : v < 2 ^ i := Nat.lt_of_lt_of_le hv (Nat.pow_le_pow_right (by omega) (by omega))
        exact absurd (Nat.testBit_lt_two_pow this) (by simp [hb])
      have hone : (1 : Nat) <<< pos = 2 ^ pos := by
        rw [Nat.shiftLeft_eq, Nat.one_mul]
      have hmask : wordSize - 1 = 2 ^ 32 - 1 := rfl
      rw [Nat.testBit_and, Nat.testBit_xor, hone, hmask,
        Nat.testBit_two_pow_sub_one, Nat.testBit_two_pow, hb]
      simp only [Bool.true_and]
      rcases Nat.lt_or_ge i pos with hip | hip
      · have h1 : ¬ pos ≤ i := by omega
        have h2 : ¬ pos + 1 ≤ i := by omega
        have h3 : pos ≠ i := by omega
        simp [h1, h2, h3, hi]
      · rcases Nat.eq_or_lt_of_le hip with heq | hlt
        · simp [heq, hi]
        · have h1 : pos ≤ i := hip
          have h2 : pos + 1 ≤ i := by omega
          have h3 : pos ≠ i := by omega
          have h4 : (i < pos + 1 + n) ↔ (i < pos + (n + 1)) := by omega
          simp [h1, h2, h3, hi, h4]
    · have hb' : v.testBit i = false := by exact Bool.eq_false_iff.mpr hb
      have : (v &&& ((wordSize - 1) ^^^ (1 <<< pos))).testBit i = false := by
        rw [Nat.testBit_and, hb', Bool.false_and]
      simp [this, hb']

theorem shiftLeft_lt_wordSize (val pos sz : Nat) (hpos : pos + sz ≤ 32)
    (hval : val < 2 ^ sz) : val <<< pos < wordSize := by
  rw [Nat.shiftLeft_eq]
  have h1 : val * 2 ^ pos < 2 ^ sz * 2 ^ pos :=
    Nat.mul_lt_mul_of_lt_of_le hval (Nat.le_refl _) (Nat.pow_pos (by omega))
  have h2 : 2 ^ sz * 2 ^ pos = 2 ^ (sz + pos) := (Nat.pow_add 2 sz pos).symm
  have h3 : (2 : Nat) ^ (sz + pos) ≤ 2 ^ 32 := Nat.pow_le_pow_right (by omega) (by omega)
  show val * 2 ^ pos < 2 ^ 32
  omega

theorem odo_set_gpt_field_lt (r : Regs) (reg : Reg) (pos sz val : Nat) :
    ioread32 (odo_set_gpt_field r reg pos sz val) reg < wordSize := by
  rw [odo_set_gpt_field, ioread32_iowrite32_self]
  exact Nat.mod_lt _ (by norm_num [wordSize])

theorem odo_set_gpt_field_other (r : Regs) (reg reg2 : Reg) (pos sz val : Nat)
    (h : reg2 ≠ reg) :
    ioread32 (odo_set_gpt_field r reg pos sz val) reg2 = ioread32 r reg2 := by
  rw [odo_set_gpt_field]
  exact ioread32_iowrite32_other r reg reg2 _ h

theorem odo_set_gpt_field_testBit (r : Regs) (reg : Reg) (pos sz val i : Nat)
    (hr : ioread32 r reg < wordSize) (hpos : pos + sz ≤ 32) (hval : val < 2 ^ sz) :
    (ioread32 (odo_set_gpt_field r reg pos sz val) reg).testBit i =
      if pos ≤ i ∧ i < pos + sz then val.testBit (i - pos)
      else (ioread32 r reg).testBit i := by
  have hshift : val <<< pos < wordSize := shiftLeft_lt_wordSize val pos sz hpos hval
  have hclear : clearBits (ioread32 r reg) pos sz < wordSize :=
    Nat.lt_of_le_of_lt (clearBits_le _ _ _) hr
  have hor : clearBits (ioread32 r reg) pos sz ||| (val <<< pos) % wordSize < wordSize := by
    rw [Nat.mod_eq_of_lt hshift]
    exact Nat.or_lt_two_pow hclear hshift
  rw [odo_set_gpt_field, ioread32_iowrite32_self]
  show ((clearBits (ioread32 r reg) pos sz ||| (val <<< pos) % wordSize) % wordSize).testBit i = _
  rw [Nat.mod_eq_of_lt hor, Nat.mod_eq_of_lt hshift, Nat.testBit_or,
    clearBits_testBit sz pos _ i hr, Nat.testBit_shiftLeft]
  rcases Nat.lt_or_ge i pos with hlo | hge
  · have h1 : ¬ (pos ≤ i ∧ i < pos + sz) := by omega
    have h2 : ¬ i ≥ pos := by omega
    simp [h1, h2, show ¬ pos ≤ i by omega]
  · rcases Nat.lt_or_ge i (pos + sz) with hin | hout
    · have h1 : pos ≤ i ∧ i < pos + sz := ⟨hge, hin⟩
      simp [h1, hge, show pos ≤ i from hge]
    · have h1 : ¬ (pos ≤ i ∧ i < pos + sz) := by omega
      have hv : val.testBit (i - pos) = false :=
        Nat.testBit_lt_two_pow
          (Nat.lt_of_lt_of_le hval (Nat.pow_le_pow_right (by omega) (by omega)))
      simp [h1, hge, show pos ≤ i from hge, hv, Bool.and_comm]

theorem extractField_testBit (v pos sz i : Nat) :
    (extractField v pos sz).testBit i = (v.testBit (pos + i) && decide (i < sz)) := by
  rw [extractField, Nat.testBit_and, Nat.testBit_shiftRight, Nat.testBit_two_pow_sub_one]

theorem extractField_congr (v w pos sz : Nat)
    (h : ∀ i, pos ≤ i → i < pos + sz → v.testBit i = w.testBit i) :
    extractField v pos sz = extractField w pos sz := by
  apply Nat.eq_of_testBit_eq
  intro i
  rw [extractField_testBit, extractField_testBit]
  by_cases hi : i < sz
  · rw [h (pos + i) (by omega) (by omega)]
  · simp [hi]

theorem extractField_set_self (r : Regs) (reg : Reg) (pos sz val : Nat)
    (hr : ioread32 r reg < wordSize) (hpos : pos + sz ≤ 32) (hval : val < 2 ^ sz) :
    extractField (ioread32 (odo_set_gpt_field r reg pos sz val) reg) pos sz = val := by
  apply Nat.eq_of_testBit_eq
  intro i
  rw [extractField_testBit, odo_set_gpt_field_testBit r reg pos sz val (pos + i) hr hpos hval]
  by_cases hi : i < sz
  · have h1 : pos ≤ pos + i ∧ pos + i < pos + sz := ⟨by omega, by omega⟩
    rw [if_pos h1]
    have h2 : pos + i - pos = i := by omega
    simp [h2, hi]
  · have hv : val.testBit i = false :=
      Nat.testBit_lt_two_pow
        (Nat.lt_of_lt_of_le hval (Nat.pow_le_pow_right (by omega) (by omega)))
    simp [hi, hv]

theorem extractField_set_disjoint (r : Regs) (reg : Reg) (pos sz val pos2 sz2 : Nat)
    (hr : ioread32 r reg < wordSize) (hpos : pos + sz ≤ 32) (hval : val < 2 ^ sz)
    (hdisj : pos2 + sz2 ≤ pos ∨ pos + sz ≤ pos2) :
    extractField (ioread32 (odo_set_gpt_field r reg pos sz val) reg) pos2 sz2 =
      extractField (ioread32 r reg) pos2 sz2 := by
  apply extractField_congr
  intro i h1 h2
  rw [odo_set_gpt_field_testBit r reg pos sz val i hr hpos hval]
  have h3 : ¬ (pos ≤ i ∧ i < pos + sz) := by omega
  simp [h3]

theorem shiftLeft32_add_eq_or (ms c : Nat) (hc : c < wordSize) :
    (ms <<< 32) + c = (ms <<< 32) ||| c := by
  rw [Nat.shiftLeft_eq, Nat.mul_comm]
  exact Nat.mul_add_lt_is_or hc ms

theorem counter_show_ms_lt (s : OdoState) (i : QIn) (hms : s.counter_ms < wordSize) :
    (counter_show s i).2.2.counter_ms < wordSize := by
  show (if i.status &&& TSTAT_COMP ≠ 0 then ((s.counter_ms + 1) % wordSize, [TSTAT_COMP])
        else (s.counter_ms, ([] : List Nat))).1 < wordSize
  by_cases h : i.status &&& TSTAT_COMP ≠ 0
  · rw [if_pos h]
    exact Nat.mod_lt _ (by norm_num [wordSize])
  · rw [if_neg h]
    exact hms

theorem counter_show_value_eq (s : OdoState) (i : QIn)
    (hms : s.counter_ms < wordSize) (hc : i.count < wordSize) :
    (counter_show s i).1 = ((counter_show s i).2.2.counter_ms <<< 32) + i.count := by
  have hms' : (counter_show s i).2.2.counter_ms < wordSize := counter_show_ms_lt s i hms
  have hW : wordSize = 4294967296 := by norm_num [wordSize]
  have h32 : (2 : Nat) ^ 32 = 4294967296 := by norm_num
  have h64 : (2 : Nat) ^ 64 = 18446744073709551616 := by norm_num
  have hbound : ((counter_show s i).2.2.counter_ms <<< 32) + i.count < 2 ^ 64 := by
    rw [Nat.shiftLeft_eq, h32, h64]
    omega
  show (((counter_show s i).2.2.counter_ms <<< 32) + i.count) % 2 ^ 64 = _
  exact Nat.mod_eq_of_lt hbound

theorem counter_show_ms_le (s : OdoState) (i : QIn) (h : s.counter_ms + 1 < wordSize) :
    (counter_show s i).2.2.counter_ms ≤ s.counter_ms + 1 := by
  show (if i.status &&& TSTAT_COMP ≠ 0 then ((s.counter_ms + 1) % wordSize, [TSTAT_COMP])
        else (s.counter_ms, ([] : List Nat))).1 ≤ _
  by_cases hf : i.status &&& TSTAT_COMP ≠ 0
  · rw [if_pos hf, Nat.mod_eq_of_lt h]
  · rw [if_neg hf]
    omega

theorem counter_show_value_mono (t : OdoState) (j : QIn)
    (hms : t.counter_ms + 1 < wordSize)
    (hls : t.counter_ls < wordSize) (hc : j.count < wordSize)
    (hmono : j.status &&& TSTAT_COMP = 0 → t.counter_ls ≤ j.count) :
    (t.counter_ms <<< 32) + t.counter_ls ≤ (counter_show t j).1 := by
  rw [counter_show_value_eq t j (by omega) hc]
  have h32 : (2 : Nat) ^ 32 = 4294967296 := by norm_num
  have hW : wordSize = 4294967296 := by norm_num [wordSize]
  by_cases h : j.status &&& TSTAT_COMP ≠ 0
  · have hmseq : (counter_show t j).2.2.counter_ms = (t.counter_ms + 1) % wordSize := by
      show (if j.status &&& TSTAT_COMP ≠ 0 then ((t.counter_ms + 1) % wordSize, [TSTAT_COMP])
            else (t.counter_ms, ([] : List Nat))).1 = _
      rw [if_pos h]
    rw [hmseq, Nat.mod_eq_of_lt (by omega), Nat.shiftLeft_eq, Nat.shiftLeft_eq, h32]
    omega
  · have hmseq : (counter_show t j).2.2.counter_ms = t.counter_ms := by
      show (if j.status &&& TSTAT_COMP ≠ 0 then ((t.counter_ms + 1) % wordSize, [TSTAT_COMP])
            else (t.counter_ms, ([] : List Nat))).1 = _
      rw [if_neg h]
    have hle : t.counter_ls ≤ j.count := hmono (not_not.mp h)
    rw [hmseq]
    omega

/-- Claim C2 amended: for every sequence of `counter_show` calls with no
intervening reset, under the operational assumptions that the hardware
count read by a query whose status flag is clear is at least the previous
query's count (no missed wrap), that every read count is a 32-bit value,
and — the proviso the counterexample forces — that the 32-bit software
high word does not itself wrap during the sequence
(`counter_ms` plus the number of queries stays below `2 ^ 32`), the
returned 64-bit values are non-decreasing. -/
theorem queryValues_monotone (s : OdoState) (l : List QIn)
    (hms : s.counter_ms + l.length < wordSize)
    (hcount : ∀ j ∈ l, j.count < wordSize)
    (hchain : l.Chain' (fun a b => b.status &&& TSTAT_COMP = 0 → a.count ≤ b.count)) :
    (queryValues s l).Chain' (· ≤ ·) := by
  induction l generalizing s with
  | nil => simp [queryValues]
  | cons i rest ih =>
    cases rest with
    | nil => simp [queryValues]
    | cons j t =>
      have hci : i.count < wordSize := hcount i (by simp)
      have hcj : j.count < wordSize := hcount j (by simp)
      have hmsi : s.counter_ms < wordSize := by
        have := (i :: j :: t).length
        simp only [List.length_cons] at hms
        omega
      have hms1 : (counter_show s i).2.2.counter_ms + 1 < wordSize := by
        have hle := counter_show_ms_le s i (by simp only [List.length_cons] at hms; omega)
        simp only [List.length_cons] at hms
        omega
      obtain ⟨hRij, hchain2⟩ := List.chain'_cons.mp hchain
      have heq : queryValues s (i :: j :: t)
          = (counter_show s i).1
            :: (counter_show (counter_show s i).2.2 j).1
            :: queryValues (counter_show (counter_show s i).2.2 j).2.2 t := rfl
      rw [heq, List.chain'_cons]
      constructor
      · have hv1 : (counter_show s i).1
            = ((counter_show s i).2.2.counter_ms <<< 32) + (counter_show s i).2.2.counter_ls :=
          counter_show_value_eq s i hmsi hci
        rw [hv1]
        exact counter_show_value_mono (counter_show s i).2.2 j hms1
          (show i.count < wordSize from hci) hcj
          (fun h0 => hRij h0)
      · have heq2 : (counter_show (counter_show s i).2.2 j).1
            :: queryValues (counter_show (counter_show s i).2.2 j).2.2 t
            = queryValues (counter_show s i).2.2 (j :: t) := rfl
        rw [heq2]
        apply ih
        · have hle := counter_show_ms_le s i (by simp only [List.length_cons] at hms; omega)
          simp only [List.length_cons] at hms ⊢
          omega
        · intro x hx
          exact hcount x (by simp [hx])
        · exact hchain2

theorem queryValues_monotone_witness :
    (queryValues ⟨0, 0, 0, 0, 0⟩ [⟨1, 5, 0⟩, ⟨0, 6, 0⟩, ⟨1, 2, 0⟩]).Chain' (· ≤ ·) := by
  apply queryValues_monotone ⟨0, 0, 0, 0, 0⟩ [⟨1, 5, 0⟩, ⟨0, 6, 0⟩, ⟨1, 2, 0⟩]
    (by decide) (by decide)
  rw [List.chain'_cons, List.chain'_cons]
  exact ⟨fun _ => by decide, fun h => absurd h (by decide), List.chain'_singleton _⟩

/-- Claim C2 fails as stated: the software high word is a 32-bit
`unsigned long`, so from `counter_ms = 2 ^ 32 - 2` two queries that each
observe the compare-match flag — a sequence satisfying every operational
assumption the claim enumerates (32-bit counts, and the no-missed-wrap
chain condition holds vacuously because both flags are set) — wrap
`counter_ms` to 0 and return a strictly decreasing pair of values. -/
theorem queryValues_monotone_cex :
    List.Chain' (fun a b => b.status &&& TSTAT_COMP = 0 → a.count ≤ b.count)
      [(⟨1, 5, 0⟩ : QIn), ⟨1, 3, 0⟩]
  ∧ (5 : Nat) < wordSize ∧ (3 : Nat) < wordSize
  ∧ queryValues ⟨4294967294, 0, 0, 0, 0⟩ [⟨1, 5, 0⟩, ⟨1, 3, 0⟩]
      = [18446744069414584325, 3]
  ∧ ¬ List.Chain' (· ≤ ·)
      (queryValues ⟨4294967294, 0, 0, 0, 0⟩ [⟨1, 5, 0⟩, ⟨1, 3, 0⟩]) := by
  have hvals : queryValues ⟨4294967294, 0, 0, 0, 0⟩ [⟨1, 5, 0⟩, ⟨1, 3, 0⟩]
      = [18446744069414584325, 3] := by decide
  refine ⟨?_, by decide, by decide, hvals, ?_⟩
  · rw [List.chain'_pair]
    exact fun h => absurd h (by decide)
  · intro hch
    rw [hvals, List.chain'_pair] at hch
    exact absurd hch (by decide)

theorem iowrite32_WF (r : Regs) (reg : Reg) (v : Nat) (h : r.WF) :
    (iowrite32 r reg v).WF := by
  have hW : 0 < wordSize := by norm_num [wordSize]
  obtain ⟨h1, h2, h3, h4, h5⟩ := h
  cases reg <;> exact ⟨by first | exact Nat.mod_lt v hW | assumption,
    by first | exact Nat.mod_lt v hW | assumption,
    by first | exact Nat.mod_lt v hW | assumption,
    by first | exact Nat.mod_lt v hW | assumption,
    by first | exact Nat.mod_lt v hW | assumption⟩

theorem odo_set_gpt_field_WF (r : Regs) (reg : Reg) (pos sz val : Nat) (h : r.WF) :
    (odo_set_gpt_field r reg pos sz val).WF :=
  iowrite32_WF r reg _ h

theorem WF_read (r : Regs) (h : r.WF) (reg : Reg) : ioread32 r reg < wordSize := by
  obtain ⟨h1, h2, h3, h4, h5⟩ := h
  cases reg <;> assumption

/-- Claim C1: one `counter_show` reads the compare-match status; when the
bit is set it increments `counter_ms` by exactly one (32-bit wrap) and
writes exactly `TSTAT_COMP` back to the status register, and otherwise it
leaves `counter_ms` alone and writes nothing; it stores the freshly read
hardware count into `counter_ls`; and it returns the 64-bit value
`(counter_ms <<< 32) ||| count`. -/
theorem counter_show_query_steps (s : OdoState) (i : QIn)
    (hms : s.counter_ms < wordSize) (hc : i.count < wordSize) :
    (i.status &&& TSTAT_COMP ≠ 0 →
       (counter_show s i).2.2.counter_ms = (s.counter_ms + 1) % wordSize
       ∧ (counter_show s i).2.1 = [TSTAT_COMP])
  ∧ (i.status &&& TSTAT_COMP = 0 →
       (counter_show s i).2.2.counter_ms = s.counter_ms
       ∧ (counter_show s i).2.1 = [])
  ∧ (counter_show s i).2.2.counter_ls = i.count
  ∧ (counter_show s i).1 = ((counter_show s i).2.2.counter_ms <<< 32) ||| i.count := by
  refine ⟨?_, ?_, ?_, ?_⟩
  · intro h
    constructor
    · show (if i.status &&& TSTAT_COMP ≠ 0 then ((s.counter_ms + 1) % wordSize, [TSTAT_COMP])
            else (s.counter_ms, ([] : List Nat))).1 = _
      rw [if_pos h]
    · show (if i.status &&& TSTAT_COMP ≠ 0 then ((s.counter_ms + 1) % wordSize, [TSTAT_COMP])
            else (s.counter_ms, ([] : List Nat))).2 = _
      rw [if_pos h]
  · intro h
    have h' : ¬ i.status &&& TSTAT_COMP ≠ 0 := fun hc => hc h
    constructor
    · show (if i.status &&& TSTAT_COMP ≠ 0 then ((s.counter_ms + 1) % wordSize, [TSTAT_COMP])
            else (s.counter_ms, ([] : List Nat))).1 = _
      rw [if_neg h']
    · show (if i.status &&& TSTAT_COMP ≠ 0 then ((s.counter_ms + 1) % wordSize, [TSTAT_COMP])
            else (s.counter_ms, ([] : List Nat))).2 = _
      rw [if_neg h']
  · rfl
  · rw [← shiftLeft32_add_eq_or _ _ hc]
    exact counter_show_value_eq s i hms hc

theorem counter_show_query_steps_witness :
    (counter_show ⟨0, 0, 0, 0, 0⟩ ⟨1, 5, 7⟩).2.2.counter_ms = (0 + 1) % wordSize
  ∧ (counter_show ⟨0, 0, 0, 0, 0⟩ ⟨1, 5, 7⟩).2.1 = [TSTAT_COMP]
  ∧ (counter_show ⟨0, 0, 0, 0, 0⟩ ⟨1, 5, 7⟩).2.2.counter_ls = 5
  ∧ (counter_show ⟨0, 0, 0, 0, 0⟩ ⟨1, 5, 7⟩).1 =
      ((counter_show ⟨0, 0, 0, 0, 0⟩ ⟨1, 5, 7⟩).2.2.counter_ms <<< 32) ||| 5 := by
  have h := counter_show_query_steps ⟨0, 0, 0, 0, 0⟩ ⟨1, 5, 7⟩ (by decide) (by decide)
  have h1 := h.1 (by decide)
  exact ⟨h1.1, h1.2, h.2.2.1, h.2.2.2⟩

/-- Claim C3: writing to the reset attribute: a parse failure is propagated
and nothing changes; a parsed integer other than 1 and 49 (49 is the
character value of the digit one) succeeds and changes nothing; the values
1 and 49 zero the counter words and all telemetry and leave the enable bit
of TCTL set. -/
theorem reset_store_spec (parse : Except Int Int) (s : OdoState) (r : Regs) (count : Nat) :
    (∀ e, parse = .error e → reset_store parse s r count = .error e)
  ∧ (∀ n, parse = .ok n → n ≠ 1 → n ≠ 49 →
       reset_store parse s r count = .ok (s, r, count))
  ∧ (∀ n, parse = .ok n → (n = 1 ∨ n = 49) →
       reset_store parse s r count =
         .ok (⟨0, 0, 0, 0, 0⟩, (odo_full_reset s r).2, count)
       ∧ extractField (ioread32 (odo_full_reset s r).2 .tctl) 0 1 = 1) := by
  refine ⟨?_, ?_, ?_⟩
  · intro e he
    rw [he]
    rfl
  · intro n hn h1 h49
    rw [hn]
    show (if n = 1 ∨ n = 49 then _ else Except.ok (s, r, count)) = Except.ok (s, r, count)
    rw [if_neg (by simp [h1, h49])]
  · intro n hn h
    constructor
    · rw [hn]
      show (if n = 1 ∨ n = 49 then
              Except.ok ((odo_full_reset s r).1, (odo_full_reset s r).2, count)
            else Except.ok (s, r, count)) =
          Except.ok ((⟨0, 0, 0, 0, 0⟩ : OdoState), (odo_full_reset s r).2, count)
      rw [if_pos h]
      rfl
    · show extractField
        (ioread32 (odo_set_gpt_field (odo_set_gpt_field r .tctl 0 1 0) .tctl 0 1 1) .tctl) 0 1 = 1
      exact extractField_set_self _ .tctl 0 1 1
        (odo_set_gpt_field_lt r .tctl 0 1 0) (by omega) (by norm_num)

theorem reset_store_spec_witness :
    reset_store (.ok 1) ⟨7, 8, 9, 10, 11⟩ ⟨0, 0, 0, 0, 0⟩ 2 =
      .ok (⟨0, 0, 0, 0, 0⟩, (odo_full_reset ⟨7, 8, 9, 10, 11⟩ ⟨0, 0, 0, 0, 0⟩).2, 2)
  ∧ extractField
      (ioread32 (odo_full_reset ⟨7, 8, 9, 10, 11⟩ ⟨0, 0, 0, 0, 0⟩).2 .tctl) 0 1 = 1 := by
  have h := reset_store_spec (.ok 1) ⟨7, 8, 9, 10, 11⟩ ⟨0, 0, 0, 0, 0⟩ 2
  exact h.2.2 1 rfl (Or.inl rfl)

/-- Claim C4: after the completed reset path the counter words and all
telemetry are zero, the enable bit of TCTL is set again, and every other
configuration field (clock source, compare enable, free-run mode,
reset-on-disable, the prescaler register and the compare register) holds
its previous value. -/
theorem odo_full_reset_spec (s : OdoState) (r : Regs)
    (hr : ioread32 r .tctl < wordSize) :
    (odo_full_reset s r).1 = ⟨0, 0, 0, 0, 0⟩
  ∧ extractField (ioread32 (odo_full_reset s r).2 .tctl) 0 1 = 1
  ∧ extractField (ioread32 (odo_full_reset s r).2 .tctl) 1 3
      = extractField (ioread32 r .tctl) 1 3
  ∧ extractField (ioread32 (odo_full_reset s r).2 .tctl) 4 1
      = extractField (ioread32 r .tctl) 4 1
  ∧ extractField (ioread32 (odo_full_reset s r).2 .tctl) 8 1
      = extractField (ioread32 r .tctl) 8 1
  ∧ extractField (ioread32 (odo_full_reset s r).2 .tctl) 10 1
      = extractField (ioread32 r .tctl) 10 1
  ∧ ioread32 (odo_full_reset s r).2 .tprer = ioread32 r .tprer
  ∧ ioread32 (odo_full_reset s r).2 .tcmp = ioread32 r .tcmp := by
  have hr1 : ioread32 (odo_set_gpt_field r .tctl 0 1 0) .tctl < wordSize :=
    odo_set_gpt_field_lt r .tctl 0 1 0
  have hstate : (odo_full_reset s r).2 =
      odo_set_gpt_field (odo_set_gpt_field r .tctl 0 1 0) .tctl 0 1 1 := rfl
  refine ⟨rfl, ?_, ?_, ?_, ?_, ?_, ?_, ?_⟩
  · rw [hstate]
    exact extractField_set_self _ .tctl 0 1 1 hr1 (by omega) (by norm_num)
  · rw [hstate,
      extractField_set_disjoint _ .tctl 0 1 1 1 3 hr1 (by omega) (by norm_num) (Or.inr (by omega)),
      extractField_set_disjoint _ .tctl 0 1 0 1 3 hr (by omega) (by norm_num) (Or.inr (by omega))]
  · rw [hstate,
      extractField_set_disjoint _ .tctl 0 1 1 4 1 hr1 (by omega) (by norm_num) (Or.inr (by omega)),
      extractField_set_disjoint _ .tctl 0 1 0 4 1 hr (by omega) (by norm_num) (Or.inr (by omega))]
  · rw [hstate,
      extractField_set_disjoint _ .tctl 0 1 1 8 1 hr1 (by omega) (by norm_num) (Or.inr (by omega)),
      extractField_set_disjoint _ .tctl 0 1 0 8 1 hr (by omega) (by norm_num) (Or.inr (by omega))]
  · rw [hstate,
      extractField_set_disjoint _ .tctl 0 1 1 10 1 hr1 (by omega) (by norm_num) (Or.inr (by omega)),
      extractField_set_disjoint _ .tctl 0 1 0 10 1 hr (by omega) (by norm_num) (Or.inr (by omega))]
  · rw [hstate, odo_set_gpt_field_other _ .tctl .tprer 0 1 1 (by simp),
      odo_set_gpt_field_other _ .tctl .tprer 0 1 0 (by simp)]
  · rw [hstate, odo_set_gpt_field_other _ .tctl .tcmp 0 1 1 (by simp),
      odo_set_gpt_field_other _ .tctl .tcmp 0 1 0 (by simp)]

theorem odo_full_reset_spec_witness :
    (odo_full_reset ⟨1, 2, 3, 4, 5⟩ ⟨4294967295, 77, 88, 99, 111⟩).1 = ⟨0, 0, 0, 0, 0⟩
  ∧ extractField
      (ioread32 (odo_full_reset ⟨1, 2, 3, 4, 5⟩ ⟨4294967295, 77, 88, 99, 111⟩).2 .tctl) 0 1 = 1
  ∧ ioread32 (odo_full_reset ⟨1, 2, 3, 4, 5⟩ ⟨4294967295, 77, 88, 99, 111⟩).2 .tcmp = 88 := by
  have h := odo_full_reset_spec ⟨1, 2, 3, 4, 5⟩ ⟨4294967295, 77, 88, 99, 111⟩ (by decide)
  exact ⟨h.1, h.2.1, h.2.2.2.2.2.2.2⟩

/-- Claim C5 fails as stated: `mean_period_show` computes `diff * 1000` in
32-bit `unsigned long` arithmetic, so with `first_access = 0`,
`last_access = 4294968`, one access and HZ = 100 the product wraps and the
code returns 7, while the claimed formula gives 42949680. -/
theorem mean_period_show_overflow_cex :
    mean_period_show ⟨0, 0, 1, 0, 4294968⟩ 100 = 7
  ∧ (4294968 - 0) * 1000 / 100 / 1 = 42949680
  ∧ (7 : Nat) ≠ 42949680 := by
  refine ⟨by decide, by norm_num, by norm_num⟩

/-- Claim C5 amended: provided `first_access ≤ last_access < 2 ^ 32` and the
product `(last_access - first_access) * 1000` stays below `2 ^ 32` (no
32-bit overflow of the intermediate product), `mean_period_show` returns 0
when `nb_access = 0` and otherwise the truncated quotient
`(last_access - first_access) * 1000 / hz / nb_access`. -/
theorem mean_period_show_spec (s : OdoState) (hz : Nat)
    (hfl : s.first_access ≤ s.last_access)
    (hlast : s.last_access < wordSize)
    (hprod : (s.last_access - s.first_access) * 1000 < wordSize) :
    mean_period_show s hz =
      if s.nb_access = 0 then 0
      else (s.last_access - s.first_access) * 1000 / hz / s.nb_access := by
  rw [mean_period_show]
  have h1 : s.last_access + wordSize - s.first_access
      = (s.last_access - s.first_access) + wordSize := by omega
  have h2 : ((s.last_access - s.first_access) + wordSize) % wordSize
      = s.last_access - s.first_access := by
    rw [Nat.add_mod_right]
    exact Nat.mod_eq_of_lt (by omega)
  rw [h1, h2, Nat.mod_eq_of_lt hprod]

theorem mean_period_show_spec_witness :
    mean_period_show ⟨0, 0, 3, 100, 1000⟩ 100 = 3000 := by
  have h := mean_period_show_spec ⟨0, 0, 3, 100, 1000⟩ 100 (by decide) (by decide) (by decide)
  rw [h]
  norm_num

/-- Claim C6 fails as stated: in a fresh epoch a first query at clock value
0 stores 0 into first_access, which is indistinguishable from the unset
sentinel, so the second query overwrites it (0 becomes 9). -/
theorem first_access_altered_cex :
    (run_queries ⟨0, 0, 0, 0, 0⟩ [⟨0, 5, 0⟩]).first_access = 0
  ∧ (run_queries ⟨0, 0, 0, 0, 0⟩ [⟨0, 5, 0⟩, ⟨0, 7, 9⟩]).first_access = 9
  ∧ (run_queries ⟨0, 0, 0, 0, 0⟩ [⟨0, 5, 0⟩, ⟨0, 7, 9⟩]).first_access
      ≠ (run_queries ⟨0, 0, 0, 0, 0⟩ [⟨0, 5, 0⟩]).first_access := by
  refine ⟨by decide, by decide, by decide⟩

theorem run_queries_first_access_of_ne (s : OdoState) (l : List QIn)
    (h : s.first_access ≠ 0) :
    (run_queries s l).first_access = s.first_access := by
  induction l generalizing s with
  | nil => rfl
  | cons i rest ih =>
    show (run_queries (counter_show s i).2.2 rest).first_access = _
    have hstep : (counter_show s i).2.2.first_access = s.first_access := by
      rw [counter_show]
      simp only [h, if_false]
    rw [ih _ (by rw [hstep]; exact h), hstep]

/-- Claim C6 amended: provided the clock value of the first query of the
epoch is nonzero, `first_access` is set to it by that first query and never
altered by any later query before the next reset; and every query
increments `nb_access` by one (32-bit wrap) and stores the clock value into
`last_access`. -/
theorem telemetry_epoch_spec (s : OdoState) (i : QIn) (rest : List QIn)
    (h0 : s.first_access = 0) (hnow : i.now ≠ 0) :
    (run_queries s (i :: rest)).first_access = i.now
  ∧ ∀ t j, (counter_show t j).2.2.nb_access = (t.nb_access + 1) % wordSize
       ∧ (counter_show t j).2.2.last_access = j.now := by
  constructor
  · show (run_queries (counter_show s i).2.2 rest).first_access = i.now
    have hstep : (counter_show s i).2.2.first_access = i.now := by
      rw [counter_show]
      simp only [h0, if_true]
    rw [run_queries_first_access_of_ne _ _ (by rw [hstep]; exact hnow), hstep]
  · intro t j
    exact ⟨rfl, rfl⟩

theorem telemetry_epoch_spec_witness :
    (run_queries ⟨0, 0, 0, 0, 0⟩ [⟨0, 5, 7⟩, ⟨0, 9, 11⟩]).first_access = 7
  ∧ (counter_show ⟨0, 0, 0, 0, 0⟩ ⟨0, 5, 7⟩).2.2.nb_access = (0 + 1) % wordSize
  ∧ (counter_show ⟨0, 0, 0, 0, 0⟩ ⟨0, 5, 7⟩).2.2.last_access = 7 := by
  have h := telemetry_epoch_spec ⟨0, 0, 0, 0, 0⟩ ⟨0, 5, 7⟩ [⟨0, 9, 11⟩] rfl (by decide)
  exact ⟨h.1, (h.2 ⟨0, 0, 0, 0, 0⟩ ⟨0, 5, 7⟩).1, (h.2 ⟨0, 0, 0, 0, 0⟩ ⟨0, 5, 7⟩).2⟩

/-- Claim C7: for every 32-bit register value, bit offset `pos` and width
`sz` with `pos + sz ≤ 32`, and value `val < 2 ^ sz`, `odo_set_gpt_field`
writes back exactly the register with the `sz` bits at `pos` cleared ORed
with `val <<< pos`; every bit outside the field is unchanged; and no other
register is modified. -/
theorem odo_set_gpt_field_spec (r : Regs) (reg : Reg) (pos sz val : Nat)
    (hr : ioread32 r reg < wordSize) (hpos : pos + sz ≤ 32) (hval : val < 2 ^ sz) :
    ioread32 (odo_set_gpt_field r reg pos sz val) reg =
      (ioread32 r reg &&& ((wordSize - 1) ^^^ ((2 ^ sz - 1) <<< pos))) ||| (val <<< pos)
  ∧ (∀ i, i < pos ∨ pos + sz ≤ i →
       (ioread32 (odo_set_gpt_field r reg pos sz val) reg).testBit i
         = (ioread32 r reg).testBit i)
  ∧ (∀ reg2, reg2 ≠ reg →
       ioread32 (odo_set_gpt_field r reg pos sz val) reg2 = ioread32 r reg2) := by
  refine ⟨?_, ?_, ?_⟩
  · apply Nat.eq_of_testBit_eq
    intro i
    rw [odo_set_gpt_field_testBit r reg pos sz val i hr hpos hval,
      Nat.testBit_or, Nat.testBit_and, Nat.testBit_xor,
      Nat.testBit_shiftLeft, Nat.testBit_shiftLeft,
      show wordSize - 1 = 2 ^ 32 - 1 from rfl,
      Nat.testBit_two_pow_sub_one, Nat.testBit_two_pow_sub_one]
    rcases Nat.lt_or_ge i pos with hlo | hge
    · rw [if_neg (show ¬ (pos ≤ i ∧ i < pos + sz) by omega)]
      simp [show ¬ i ≥ pos by omega, show i < 32 by omega]
    · rcases Nat.lt_or_ge i (pos + sz) with hin | hout
      · rw [if_pos ⟨hge, hin⟩]
        simp [show i ≥ pos from hge, show i - pos < sz by omega, show i < 32 by omega]
      · have hv : val.testBit (i - pos) = false :=
          Nat.testBit_lt_two_pow
            (Nat.lt_of_lt_of_le hval (Nat.pow_le_pow_right (by omega) (by omega)))
        rw [if_neg (show ¬ (pos ≤ i ∧ i < pos + sz) by omega)]
        rcases Nat.lt_or_ge i 32 with h32 | h32
        · simp [show i ≥ pos from hge, show ¬ i - pos < sz by omega, hv, h32]
        · have hrb : (ioread32 r reg).testBit i = false :=
            Nat.testBit_lt_two_pow
              (Nat.lt_of_lt_of_le hr (Nat.pow_le_pow_right (by omega) (by omega)))
          simp [show i ≥ pos from hge, show ¬ i - pos < sz by omega, hv,
            show ¬ i < 32 by omega, hrb]
  · intro i hi
    rw [odo_set_gpt_field_testBit r reg pos sz val i hr hpos hval]
    have h1 : ¬ (pos ≤ i ∧ i < pos + sz) := by omega
    simp [h1]
  · intro reg2 h
    exact odo_set_gpt_field_other r reg reg2 pos sz val h

theorem odo_set_gpt_field_spec_witness :
    ioread32 (odo_set_gpt_field ⟨4294967295, 0, 0, 0, 0⟩ .tctl 1 3 3) .tctl =
      (4294967295 &&& ((wordSize - 1) ^^^ ((2 ^ 3 - 1) <<< 1))) ||| (3 <<< 1) := by
  have h := odo_set_gpt_field_spec ⟨4294967295, 0, 0, 0, 0⟩ .tctl 1 3 3
    (by decide) (by omega) (by norm_num)
  exact h.1

/-- Claim C8: `odo_timer_setup` performs exactly these eight field writes in
this order — disable counting, enable reset-on-disable, select the TIN
external input as clock source, write 0 to the prescaler field (divisor 1),
enable the compare action, clear FRR (restart-on-compare, not free-run),
set the 32-bit compare value to the maximum, enable counting — so counting
is disabled by the first write, before any mode or clock-source change, and
enabled only by the final write; afterwards every configured field holds
exactly the value written. -/
theorem odo_timer_setup_spec (r : Regs) (hr : r.WF) :
    odo_timer_setup_calls =
      [ ⟨.tctl, 0, 1, 0⟩, ⟨.tctl, 10, 1, 1⟩, ⟨.tctl, 1, 3, 3⟩, ⟨.tprer, 0, 10, 0⟩,
        ⟨.tctl, 4, 1, 1⟩, ⟨.tctl, 8, 1, 0⟩, ⟨.tcmp, 0, 32, 4294967295⟩, ⟨.tctl, 0, 1, 1⟩ ]
  ∧ extractField (ioread32 (odo_timer_setup r) .tctl) 0 1 = 1
  ∧ extractField (ioread32 (odo_timer_setup r) .tctl) 10 1 = 1
  ∧ extractField (ioread32 (odo_timer_setup r) .tctl) 1 3 = 3
  ∧ extractField (ioread32 (odo_timer_setup r) .tprer) 0 10 = 0
  ∧ extractField (ioread32 (odo_timer_setup r) .tctl) 4 1 = 1
  ∧ extractField (ioread32 (odo_timer_setup r) .tctl) 8 1 = 0
  ∧ extractField (ioread32 (odo_timer_setup r) .tcmp) 0 32 = 4294967295 := by
  have wf1 := odo_set_gpt_field_WF r .tctl 0 1 0 hr
  have wf2 := odo_set_gpt_field_WF _ .tctl 10 1 1 wf1
  have wf3 := odo_set_gpt_field_WF _ .tctl 1 3 3 wf2
  have wf4 := odo_set_gpt_field_WF _ .tprer 0 10 0 wf3
  have wf5 := odo_set_gpt_field_WF _ .tctl 4 1 1 wf4
  have wf6 := odo_set_gpt_field_WF _ .tctl 8 1 0 wf5
  have wf7 := odo_set_gpt_field_WF _ .tcmp 0 32 4294967295 wf6
  have hts : odo_timer_setup r =
      odo_set_gpt_field (odo_set_gpt_field (odo_set_gpt_field (odo_set_gpt_field
        (odo_set_gpt_field (odo_set_gpt_field (odo_set_gpt_field
          (odo_set_gpt_field r .tctl 0 1 0)
          .tctl 10 1 1) .tctl 1 3 3) .tprer 0 10 0) .tctl 4 1 1)
        .tctl 8 1 0) .tcmp 0 32 4294967295) .tctl 0 1 1 := rfl
  refine ⟨rfl, ?_, ?_, ?_, ?_, ?_, ?_, ?_⟩
  · rw [hts]
    exact extractField_set_self _ .tctl 0 1 1 (WF_read _ wf7 .tctl) (by omega) (by norm_num)
  · rw [hts,
      extractField_set_disjoint _ .tctl 0 1 1 10 1 (WF_read _ wf7 .tctl)
        (by omega) (by norm_num) (Or.inr (by omega)),
      odo_set_gpt_field_other _ .tcmp .tctl 0 32 4294967295 (by decide),
      extractField_set_disjoint _ .tctl 8 1 0 10 1 (WF_read _ wf5 .tctl)
        (by omega) (by norm_num) (Or.inr (by omega)),
      extractField_set_disjoint _ .tctl 4 1 1 10 1 (WF_read _ wf4 .tctl)
        (by omega) (by norm_num) (Or.inr (by omega)),
      odo_set_gpt_field_other _ .tprer .tctl 0 10 0 (by decide),
      extractField_set_disjoint _ .tctl 1 3 3 10 1 (WF_read _ wf2 .tctl)
        (by omega) (by norm_num) (Or.inr (by omega))]
    exact extractField_set_self _ .tctl 10 1 1 (WF_read _ wf1 .tctl) (by omega) (by norm_num)
  · rw [hts,
      extractField_set_disjoint _ .tctl 0 1 1 1 3 (WF_read _ wf7 .tctl)
        (by omega) (by norm_num) (Or.inr (by omega)),
      odo_set_gpt_field_other _ .tcmp .tctl 0 32 4294967295 (by decide),
      extractField_set_disjoint _ .tctl 8 1 0 1 3 (WF_read _ wf5 .tctl)
        (by omega) (by norm_num) (Or.inl (by omega)),
      extractField_set_disjoint _ .tctl 4 1 1 1 3 (WF_read _ wf4 .tctl)
        (by omega) (by norm_num) (Or.inl (by omega)),
      odo_set_gpt_field_other _ .tprer .tctl 0 10 0 (by decide)]
    exact extractField_set_self _ .tctl 1 3 3 (WF_read _ wf2 .tctl) (by omega) (by norm_num)
  · rw [hts,
      odo_set_gpt_field_other _ .tctl .tprer 0 1 1 (by decide),
      odo_set_gpt_field_other _ .tcmp .tprer 0 32 4294967295 (by decide),
      odo_set_gpt_field_other _ .tctl .tprer 8 1 0 (by decide),
      odo_set_gpt_field_other _ .tctl .tprer 4 1 1 (by decide)]
    exact extractField_set_self _ .tprer 0 10 0 (WF_read _ wf3 .tprer) (by omega) (by norm_num)
  · rw [hts,
      extractField_set_disjoint _ .tctl 0 1 1 4 1 (WF_read _ wf7 .tctl)
        (by omega) (by norm_num) (Or.inr (by omega)),
      odo_set_gpt_field_other _ .tcmp .tctl 0 32 4294967295 (by decide),
      extractField_set_disjoint _ .tctl 8 1 0 4 1 (WF_read _ wf5 .tctl)
        (by omega) (by norm_num) (Or.inl (by omega))]
    exact extractField_set_self _ .tctl 4 1 1 (WF_read _ wf4 .tctl) (by omega) (by norm_num)
  · rw [hts,
      extractField_set_disjoint _ .tctl 0 1 1 8 1 (WF_read _ wf7 .tctl)
        (by omega) (by norm_num) (Or.inr (by omega)),
      odo_set_gpt_field_other _ .tcmp .tctl 0 32 4294967295 (by decide)]
    exact extractField_set_self _ .tctl 8 1 0 (WF_read _ wf5 .tctl) (by omega) (by norm_num)
  · rw [hts, odo_set_gpt_field_other _ .tctl .tcmp 0 1 1 (by decide)]
    exact extractField_set_self _ .tcmp 0 32 4294967295 (WF_read _ wf6 .tcmp)
      (by omega) (by norm_num)

theorem odo_timer_setup_spec_witness :
    extractField (ioread32 (odo_timer_setup ⟨0, 0, 0, 0, 0⟩) .tctl) 0 1 = 1
  ∧ extractField (ioread32 (odo_timer_setup ⟨0, 0, 0, 0, 0⟩) .tctl) 1 3 = 3
  ∧ extractField (ioread32 (odo_timer_setup ⟨0, 0, 0, 0, 0⟩) .tcmp) 0 32 = 4294967295 := by
  have h := odo_timer_setup_spec ⟨0, 0, 0, 0, 0⟩ (by decide)
  exact ⟨h.2.1, h.2.2.2.1, h.2.2.2.2.2.2.2⟩

/-- Claim C9 concerns the lock the specification mandates around the
read-status, increment, clear-status sequence of `counter_show`: the source
takes no lock, and with the compare-match flag set once, the unlocked
interleaving read(A), read(B), update(A), update(B) increments `counter_ms`
twice, while a serialized execution of the same two calls increments it
once. -/
theorem counter_show_unlocked_double_count :
    (race_run ⟨true, 0, false, false⟩
       [(.A, .readStatus), (.B, .readStatus),
        (.A, .carryUpdate), (.B, .carryUpdate)]).counter_ms = 2
  ∧ (race_run ⟨true, 0, false, false⟩
       [(.A, .readStatus), (.A, .carryUpdate),
        (.B, .readStatus), (.B, .carryUpdate)]).counter_ms = 1 := by
  exact ⟨rfl, rfl⟩

/-- Claim C10 concerns the fallback bounds of `odo_init`: `gpt_id = 6`
passes the validation, its MEM_GPT_OFFSET index 5 is in bounds, but its
GPT_TIN index is 6, outside the six-element array; ids 2 to 5 are in
bounds for both arrays. -/
theorem odo_init_gpio_index_oob :
    fallback_accepts 6 = true
  ∧ offset_index 6 < (MEM_GPT_OFFSET.length : Int)
  ∧ ¬ gpio_index 6 < (GPT_TIN.length : Int)
  ∧ fallback_accepts 5 = true
  ∧ gpio_index 5 < (GPT_TIN.length : Int)
  ∧ fallback_accepts 2 = true
  ∧ gpio_index 2 < (GPT_TIN.length : Int) := by
  refine ⟨by decide, by decide, by decide, by decide, by decide, by decide, by decide⟩

end Odo
